import Mathlib

/-!
Verification development for the BetweenLines WhatsApp chat analyzer
(`app.py`).  The parsing/scoring core is embedded shallowly:

* `parse_whatsapp_chat` (the log parser, lines 30-64 of the source),
* `fallback_scores` (the heuristic classifier, lines 124-173),
* `parse_ai_scores` (the remote-reply parser, lines 99-122),
* `calculate_scores` (the classifier with remote fallback, lines 66-97),
* the role aggregation loop of `select_identity` (lines 333-343).

Python strings are modelled as `List Char` / `String`; `datetime` values as
integer seconds on the proleptic Gregorian calendar; Python dicts as
association lists with `KeyError` modelled by `Option`; machine-level
details that the source never reaches (unicode digit classes, non-ASCII
case mapping) are modelled at ASCII precision, which is exact on every
input the theorems below touch.
-/

namespace ChatAnalyzer

/-- ASCII whitespace recognised by Python `str.strip`, `str.split` and the
regex class `\s`. -/
def isSpacePy (c : Char) : Bool :=
  c = ' ' || c = '\t' || c = '\n' || c = '\x0d' || c = '\x0b' || c = '\x0c'

/-- Python `str.strip()` on a character list. -/
def pyStrip (cs : List Char) : List Char :=
  ((cs.dropWhile isSpacePy).reverse.dropWhile isSpacePy).reverse

/-- Python `str.lower()`, at ASCII precision (`Char.toLower` lowercases
exactly the ASCII uppercase letters). -/
def lowerStr (cs : List Char) : List Char := cs.map Char.toLower

/-- Python substring containment `needle in hay`; an empty needle is
contained in everything. -/
def substrIn (needle : List Char) : List Char → Bool
  | [] => needle.isEmpty
  | c :: rest => needle.isPrefixOf (c :: rest) || substrIn needle rest

/-- helper for `tokCount`: the flag records whether the previous character
was part of a token. -/
def tokAux : Bool → List Char → Nat
  | _, [] => 0
  | inWord, c :: rest =>
    if isSpacePy c then tokAux false rest
    else (if inWord then 0 else 1) + tokAux true rest

/-- Python `len(s.split())`: the number of maximal whitespace-free runs. -/
def tokCount (cs : List Char) : Nat := tokAux false cs

/-- helper for `splitChar`. -/
def splitCharAux (sep : Char) (acc : List Char) : List Char → List (List Char)
  | [] => [acc.reverse]
  | c :: rest =>
    if c = sep then acc.reverse :: splitCharAux sep [] rest
    else splitCharAux sep (c :: acc) rest

/-- Python `s.split(sep)` for a one-character separator. -/
def splitChar (sep : Char) (cs : List Char) : List (List Char) :=
  splitCharAux sep [] cs

/-- regex word character `\w` at ASCII precision: letters, digits, underscore. -/
def isWordChar (c : Char) : Bool := c.isAlphanum || c = '_'

/-- the apostrophe character, U+0027. -/
def apos : Char := Char.ofNat 39

/-- three consecutive dots somewhere in the list (regex `\.` repeated 3+). -/
def hasDots3 (cs : List Char) : Bool := substrIn ['.', '.', '.'] cs

/-- the trigger words of the `trouble` rule, lowercased. -/
def troubleWords : List (List Char) := ["sure".data, "okay".data, "whatever".data]

/-- does one of the trigger words start here, with a word boundary after it
and an ellipsis of 3+ dots later in the message?  (The boundary before the
word is checked by the caller `troubleScan`.) -/
def troubleWordAt (cs : List Char) : Bool :=
  troubleWords.any fun w =>
    w.isPrefixOf cs &&
    (let rest := cs.drop w.length
     (match rest with
      | [] => true
      | d :: _ => !isWordChar d) && hasDots3 rest)

/-- scan of the `trouble` regex `\b(sure|okay|whatever)\b.*\.` repeated 3+,
over an already lowercased message; the flag records whether the previous
character was a word character (for the leading `\b`). -/
def troubleScan : Bool → List Char → Bool
  | _, [] => false
  | prevW, c :: rest =>
    (!prevW && troubleWordAt (c :: rest)) || troubleScan (isWordChar c) rest

/-- the three affection emoji literals of app.py line 149, given by the
exact codepoints stored in the source file. -/
def romanticEmoji : List (List Char) :=
  [[Char.ofNat 0x201A, Char.ofNat 0xF9, Char.ofNat 0xA7, Char.ofNat 0xD4,
    Char.ofNat 0x220F, Char.ofNat 0xE8],
   [Char.ofNat 0xF8FF, Char.ofNat 0xFC, Char.ofNat 0x2022, Char.ofNat 0x221E],
   [Char.ofNat 0xF8FF, Char.ofNat 0xFC, Char.ofNat 0xF2, Char.ofNat 0xF2]]

/-- the affectionate words of app.py line 151. -/
def affectionateWords : List (List Char) :=
  ["love".data, "darling".data, "sweetheart".data]

/-- the blame phrases of app.py line 158; the third contains an apostrophe. -/
def faultPhrases : List (List Char) :=
  ["you always".data, "you never".data,
   "it".data ++ [apos] ++ "s your fault".data]

/-- the humor markers of app.py line 166: two laughter words and the exact
codepoints of the two emoji literals stored in the source file. -/
def jokerWords : List (List Char) :=
  ["lol".data, "haha".data,
   [Char.ofNat 0xF8FF, Char.ofNat 0xFC, Char.ofNat 0xF2, Char.ofNat 0xC7],
   [Char.ofNat 0xF8FF, Char.ofNat 0xFC, Char.ofNat 0xA7, Char.ofNat 0xA3]]

/-- a parsed chat message: timestamp in seconds, sender, body. -/
structure Msg where
  timestamp : Int
  sender : String
  message : String
deriving DecidableEq, Repr

/-- Python dict lookup `d[k]`; `none` is a `KeyError`. -/
def dget {α : Type} : List (String × α) → String → Option α
  | [], _ => none
  | (k, v) :: rest, key => if k = key then some v else dget rest key

/-- Python dict assignment `d[k] = v`: updates in place when the key
exists, appends otherwise (insertion order preserved). -/
def dset {α : Type} : List (String × α) → String → α → List (String × α)
  | [], key, v => [(key, v)]
  | (k, w) :: rest, key, v =>
    if k = key then (key, v) :: rest else (k, w) :: dset rest key v

/-- a per-participant role-counter dict, `scores[p]` in the source. -/
abbrev RoleDict := List (String × Int)

/-- the nested counter dict `scores` of the source. -/
abbrev Scores := List (String × RoleDict)

/-- the nested lookup `scores[p][r]`. -/
def sget (s : Scores) (p r : String) : Option Int :=
  match dget s p with
  | some d => dget d r
  | none => none

/-- `scores[p][r] += 1`; a missing participant or role key is a Python
`KeyError`, modelled as `none`. -/
def bump (s : Scores) (p r : String) : Option Scores :=
  match dget s p with
  | none => none
  | some d =>
    match dget d r with
    | none => none
    | some v => some (dset s p (dset d r (v + 1)))

/-- a guarded increment: Python `if cond: scores[p][r] += 1`. -/
def bumpIf (cond : Bool) (s : Scores) (p r : String) : Option Scores :=
  if cond then bump s p r else some s

/-- the seven-role zero counter dict of app.py lines 126-127, in source
order. -/
def initRoles7 : RoleDict :=
  [("starter", 0), ("snubber", 0), ("romantic", 0), ("trouble", 0),
   ("fault", 0), ("listener", 0), ("joker", 0)]

/-- the initial `scores` dict literal of `fallback_scores`; when the two
names coincide the second binding overwrites the first, as in Python. -/
def initScores7 (a b : String) : Scores :=
  dset (dset [] a initRoles7) b initRoles7

/-- one emoji of `romanticEmoji` occurs in the raw body. -/
def romanticEmojiHit (m : List Char) : Bool := romanticEmoji.any (substrIn · m)

/-- one affectionate word occurs in the lowercased body. -/
def romanticWordHit (m : List Char) : Bool :=
  affectionateWords.any (substrIn · (lowerStr m))

/-- app.py line 155: `re.search` of the sarcasm pattern, case-insensitive. -/
def troubleHit (m : List Char) : Bool := troubleScan false (lowerStr m)

/-- one blame phrase occurs in the lowercased body. -/
def faultHit (m : List Char) : Bool := faultPhrases.any (substrIn · (lowerStr m))

/-- the body contains a question mark. -/
def listenerHit (m : List Char) : Bool := substrIn ['?'] m

/-- one humor marker occurs in the lowercased body. -/
def jokerHit (m : List Char) : Bool := jokerWords.any (substrIn · (lowerStr m))

/-- app.py line 146: the lowercased body contains none of yes/no/maybe. -/
def snubAnswerMiss (m : List Char) : Bool :=
  !(["yes".data, "no".data, "maybe".data].any (substrIn · (lowerStr m)))

/-- app.py line 142: the gap since the previous message exceeds 6 hours. -/
def snubRuleA (lastT : Int) (m : Msg) : Bool :=
  decide (21600 < m.timestamp - lastT)

/-- app.py line 144: the body has fewer than 4 whitespace-separated tokens. -/
def snubRuleB (m : Msg) : Bool := decide (tokCount m.message.data < 4)

/-- app.py line 146: the previous body is truthy, contains a question
mark, and the current lowercased body contains none of yes/no/maybe. -/
def snubRuleC (lastM : String) (m : Msg) : Bool :=
  (lastM != "") && substrIn ['?'] lastM.data && snubAnswerMiss m.message.data

/-- the snubber rules of `fallback_scores` (app.py lines 140-147): the
block is entered only when `last_sender` is truthy (nonempty) and differs
from the current sender; inside it the three rules fire independently. -/
def snubberBlock (lastT : Int) (lastS lastM : String) (s : Scores) (m : Msg) :
    Option Scores :=
  if (lastS != "") && (lastS != m.sender) then
    match bumpIf (snubRuleA lastT m) s m.sender "snubber" with
    | none => none
    | some s1 =>
      match bumpIf (snubRuleB m) s1 m.sender "snubber" with
      | none => none
      | some s2 => bumpIf (snubRuleC lastM m) s2 m.sender "snubber"
  else some s

/-- app.py line 137: a previous timestamp exists and the gap is at least
8 hours. -/
def starterCond (prev : Option (Int × String × String)) (m : Msg) : Bool :=
  match prev with
  | some (t, _, _) => decide (28800 ≤ m.timestamp - t)
  | none => false

/-- one iteration of the scoring loop of `fallback_scores` (app.py lines
132-167); `prev` carries `(last_timestamp, last_sender, last_msg)`, all
three set together after the first message. -/
def stepMsg (prev : Option (Int × String × String)) (s : Scores) (m : Msg) :
    Option Scores :=
  Option.bind (bumpIf (starterCond prev m) s m.sender "starter") fun s1 =>
  Option.bind
    (match prev with
     | some (t, ls, lm) => snubberBlock t ls lm s1 m
     | none => some s1) fun s2 =>
  Option.bind (bumpIf (romanticEmojiHit m.message.data) s2 m.sender "romantic")
    fun s3 =>
  Option.bind (bumpIf (romanticWordHit m.message.data) s3 m.sender "romantic")
    fun s4 =>
  Option.bind (bumpIf (troubleHit m.message.data) s4 m.sender "trouble")
    fun s5 =>
  Option.bind (bumpIf (faultHit m.message.data) s5 m.sender "fault") fun s6 =>
  Option.bind (bumpIf (listenerHit m.message.data) s6 m.sender "listener")
    fun s7 =>
  bumpIf (jokerHit m.message.data) s7 m.sender "joker"

/-- the message loop of `fallback_scores`. -/
def fallbackLoop (s : Scores) (prev : Option (Int × String × String)) :
    List Msg → Option Scores
  | [] => some s
  | m :: rest =>
    match stepMsg prev s m with
    | none => none
    | some s1 => fallbackLoop s1 (some (m.timestamp, m.sender, m.message)) rest

/-- app.py lines 124-173: the heuristic classifier.  The result is `none`
exactly when the Python code raises a `KeyError` (a scoring rule fires for
a sender that is not a key of the initial dict). -/
def fallback_scores (msgs : List Msg) (person_a person_b : String) :
    Option Scores :=
  fallbackLoop (initScores7 person_a person_b) none msgs

/-- regex `\d` repeated between `lo` and `hi` times, in the backtracking-free
reading that applies when the following pattern character can never be a
digit: the maximal digit run must have length in `[lo, hi]`. -/
def expectDigits (lo hi : Nat) (cs : List Char) :
    Option (List Char × List Char) :=
  let run := cs.takeWhile Char.isDigit
  if lo ≤ run.length && run.length ≤ hi then some (run, cs.drop run.length)
  else none

/-- a single literal character of the pattern. -/
def expectChar (c : Char) : List Char → Option (List Char)
  | [] => none
  | d :: rest => if d = c then some rest else none

/-- a literal character sequence of the pattern. -/
def expectStr (s : List Char) (cs : List Char) : Option (List Char) :=
  if s.isPrefixOf cs then some (cs.drop s.length) else none

/-- regex tail `(.+?): (.+)`: the lazy group takes the shortest nonempty
sender such that a `": "` follows with a nonempty remainder. -/
def splitSenderAux (acc : List Char) : List Char → Option (List Char × List Char)
  | ':' :: ' ' :: d :: rest => some (acc.reverse, d :: rest)
  | c :: rest => splitSenderAux (c :: acc) rest
  | [] => none

/-- entry point of `splitSenderAux`: the sender has at least one character. -/
def splitSender : List Char → Option (List Char × List Char)
  | [] => none
  | c :: rest => splitSenderAux [c] rest

/-- the captured pieces of the first header regex (app.py line 39). -/
structure Match1 where
  dayS : List Char
  monS : List Char
  yearS : List Char
  hourS : List Char
  minS : List Char
  wsLen : Nat
  pm : Bool
  sender : List Char
  message : List Char

/-- app.py line 39: match of
`(\d/\d/\d4), (\d:\d2 [ap]m) - (.+?): (.+)` shapes (1-2 digit day and
month, 4-digit year, 1-2 digit hour, 2-digit minute, optional whitespace
before the case-insensitive am/pm marker). -/
def pat1 (cs : List Char) : Option Match1 := do
  let (dayS, cs) ← expectDigits 1 2 cs
  let cs ← expectChar '/' cs
  let (monS, cs) ← expectDigits 1 2 cs
  let cs ← expectChar '/' cs
  let (yearS, cs) ← expectDigits 4 4 cs
  let cs ← expectStr [',', ' '] cs
  let (hourS, cs) ← expectDigits 1 2 cs
  let cs ← expectChar ':' cs
  let (minS, cs) ← expectDigits 2 2 cs
  let ws := cs.takeWhile isSpacePy
  let cs := cs.drop ws.length
  match cs with
  | a :: b :: cs2 =>
    if (a.toLower = 'a' || a.toLower = 'p') && b.toLower = 'm' then do
      let cs3 ← expectStr [' ', '-', ' '] cs2
      let (sender, message) ← splitSender cs3
      pure ⟨dayS, monS, yearS, hourS, minS, ws.length, a.toLower = 'p',
            sender, message⟩
    else none
  | _ => none

/-- the captured pieces of the second, bracketed header regex (app.py
line 42). -/
structure Match2 where
  monS : List Char
  dayS : List Char
  yearS : List Char
  hourS : List Char
  minS : List Char
  secS : List Char
  c1 : Char
  c2 : Char
  sender : List Char
  message : List Char

/-- one of the three characters the class `[APM]` admits. -/
def isAPM (c : Char) : Bool := c = 'A' || c = 'P' || c = 'M'

/-- app.py line 42: match of the bracketed header
`[\d/\d/\d 2-4, \d:\d2:\d2 [APM]2] (.+?): (.+)` (uppercase-only marker,
2-4 digit year, seconds present). -/
def pat2 (cs : List Char) : Option Match2 := do
  let cs ← expectChar '[' cs
  let (monS, cs) ← expectDigits 1 2 cs
  let cs ← expectChar '/' cs
  let (dayS, cs) ← expectDigits 1 2 cs
  let cs ← expectChar '/' cs
  let (yearS, cs) ← expectDigits 2 4 cs
  let cs ← expectStr [',', ' '] cs
  let (hourS, cs) ← expectDigits 1 2 cs
  let cs ← expectChar ':' cs
  let (minS, cs) ← expectDigits 2 2 cs
  let cs ← expectChar ':' cs
  let (secS, cs) ← expectDigits 2 2 cs
  let cs ← expectChar ' ' cs
  match cs with
  | c1 :: c2 :: cs2 =>
    if isAPM c1 && isAPM c2 then do
      let cs3 ← expectStr [']', ' '] cs2
      let (sender, message) ← splitSender cs3
      pure ⟨monS, dayS, yearS, hourS, minS, secS, c1, c2, sender, message⟩
    else none
  | _ => none

/-- numeric value of a digit string. -/
def natOf (cs : List Char) : Nat := cs.foldl (fun n c => n * 10 + (c.toNat - 48)) 0

/-- Gregorian leap year. -/
def isLeap (y : Nat) : Bool := y % 4 = 0 && (y % 100 != 0 || y % 400 = 0)

/-- length of a month, as validated by `datetime`. -/
def daysInMonth (y m : Nat) : Nat :=
  if m = 2 then (if isLeap y then 29 else 28)
  else if m = 4 || m = 6 || m = 9 || m = 11 then 30
  else 31

/-- days in the months of year `y` strictly before month `m`. -/
def daysBeforeMonth (y m : Nat) : Nat :=
  (List.range (m - 1)).foldl (fun acc i => acc + daysInMonth y (i + 1)) 0

/-- days from 0001-01-01 (day 0) to the given date, proleptic Gregorian —
Python `datetime.toordinal() - 1`. -/
def dayNumber (y m d : Nat) : Nat :=
  let py := y - 1
  py * 365 + py / 4 - py / 100 + py / 400 + daysBeforeMonth y m + (d - 1)

/-- a datetime as integer seconds from 0001-01-01 00:00:00. -/
def tsOf (y mo d h mi s : Nat) : Int :=
  ((dayNumber y mo d) * 86400 + h * 3600 + mi * 60 + s : Nat)

/-- `datetime.strptime(timestamp_str, '%d/%m/%Y, %I:%M %p')` applied to the
string rebuilt from the groups of `pat1`: field ranges checked by strptime
and the `datetime` constructor; at least one whitespace character must
separate the minutes from the am/pm marker (the format's blank matches
`\s` once or more). -/
def conv1 (m : Match1) : Option Msg :=
  let d := natOf m.dayS
  let mo := natOf m.monS
  let y := natOf m.yearS
  let h := natOf m.hourS
  let mi := natOf m.minS
  if 1 ≤ m.wsLen ∧ 1 ≤ d ∧ d ≤ 31 ∧ 1 ≤ mo ∧ mo ≤ 12 ∧ 1 ≤ y ∧
     d ≤ daysInMonth y mo ∧ 1 ≤ h ∧ h ≤ 12 ∧ mi ≤ 59 then
    some ⟨tsOf y mo d (h % 12 + (if m.pm then 12 else 0)) mi 0,
          String.mk m.sender, String.mk m.message⟩
  else none

/-- `datetime.strptime(timestamp_str, '%m/%d/%y, %I:%M:%S %p')` applied to
the group of `pat2`: `%y` consumes exactly two digits (a 3- or 4-digit
year makes strptime fail), pivoting at 69; the marker must be exactly
`AM` or `PM` among the `[APM]` pairs; seconds above 59 are rejected by the
`datetime` constructor. -/
def conv2 (m : Match2) : Option Msg :=
  let d := natOf m.dayS
  let mo := natOf m.monS
  let yy := natOf m.yearS
  let y := if yy ≤ 68 then 2000 + yy else 1900 + yy
  let h := natOf m.hourS
  let mi := natOf m.minS
  let s := natOf m.secS
  if m.yearS.length = 2 ∧ 1 ≤ d ∧ d ≤ 31 ∧ 1 ≤ mo ∧ mo ≤ 12 ∧
     d ≤ daysInMonth y mo ∧ 1 ≤ h ∧ h ≤ 12 ∧ mi ≤ 59 ∧ s ≤ 59 ∧
     m.c2 = 'M' ∧ (m.c1 = 'A' ∨ m.c1 = 'P') then
    some ⟨tsOf y mo d (h % 12 + (if m.c1 = 'P' then 12 else 0)) mi s,
          String.mk m.sender, String.mk m.message⟩
  else none

/-- app.py lines 36-60, one iteration: strip the line, try the first
header pattern, else the second; a line whose header matches but whose
timestamp fails to parse is silently dropped (`except ValueError:
continue`), and the first pattern matching suppresses the second even when
its timestamp is invalid. -/
def parseLine (raw : List Char) : Option Msg :=
  let l := pyStrip raw
  match pat1 l with
  | some m1 => conv1 m1
  | none =>
    match pat2 l with
    | some m2 => conv2 m2
    | none => none

/-- the exact error text of app.py line 63. -/
def fewParticipantsMsg : String := "Chat must contain at least two participants."

/-- the message list accumulated by the loop of app.py lines 36-60: one
entry per line whose header and timestamp both parse. -/
def parsedMsgs (text : String) : List Msg :=
  (splitChar '\n' text.data).filterMap parseLine

/-- app.py lines 30-64: `parse_whatsapp_chat` on the raw text content.
Messages are collected line by line; a sender joins the participant set
exactly when its line parses (header and timestamp).  The Python `set` is
enumerated in an unspecified order; it is modelled by `List.dedup` of the
senders in message order. -/
def parse_whatsapp_chat (text : String) :
    Except String (List Msg × List String) :=
  if ((parsedMsgs text).map (·.sender)).dedup.length < 2 then
    .error fewParticipantsMsg
  else .ok (parsedMsgs text, ((parsedMsgs text).map (·.sender)).dedup)

/-- the five-role zero dict of app.py lines 100-101; note that `listener`
and `joker` are absent here, unlike in `initRoles7`. -/
def initRoles5 : RoleDict :=
  [("starter", 0), ("snubber", 0), ("romantic", 0), ("trouble", 0),
   ("fault", 0)]

/-- the initial `scores` dict literal of `parse_ai_scores`. -/
def initScores5 (p1 p2 : String) : Scores :=
  dset (dset [] p1 initRoles5) p2 initRoles5

/-- tail of a Python integer literal body: ASCII digits with single
underscores between digits. -/
def digitsTail : List Char → Bool
  | [] => true
  | '_' :: c :: rest => c.isDigit && digitsTail rest
  | '_' :: [] => false
  | c :: rest => c.isDigit && digitsTail rest

/-- nonempty digit body starting with a digit. -/
def digitsBody : List Char → Bool
  | [] => false
  | c :: rest => c.isDigit && digitsTail rest

/-- Python `int(s)` on a string: optional surrounding whitespace, optional
sign, ASCII digits with single internal underscores; `none` is the
ValueError case. -/
def pyInt (cs : List Char) : Option Int :=
  match pyStrip cs with
  | '+' :: rest =>
    if digitsBody rest then some ((natOf (rest.filter (· != '_')) : Nat) : Int)
    else none
  | '-' :: rest =>
    if digitsBody rest then some (-((natOf (rest.filter (· != '_')) : Nat) : Int))
    else none
  | t =>
    if digitsBody t then some ((natOf (t.filter (· != '_')) : Nat) : Int)
    else none

/-- one `key=value` part of a reply line (app.py lines 112-121).  The
result is `none` for the uncaught ValueError raised when the part contains
more than one `=` (the tuple unpacking stands outside the inner `try`); a
non-integer value is the caught ValueError (`pass`); a value for an
unknown role key is ignored by the `role in scores[...]` guard. -/
def aiPart (s : Scores) (cur : String) (part : List Char) : Option Scores :=
  if substrIn ['='] part then
    match splitChar '=' part with
    | [roleS, countS] =>
      match pyInt countS with
      | none => some s
      | some n =>
        match dget s cur with
        | none => none
        | some d =>
          if (dget d (String.mk (lowerStr (pyStrip roleS)))).isSome then
            some (dset s cur (dset d (String.mk (lowerStr (pyStrip roleS))) n))
          else some s
    | _ => none
  else some s

/-- the `for part in parts` loop of app.py lines 112-121. -/
def aiParts (s : Scores) (cur : String) : List (List Char) → Option Scores
  | [] => some s
  | part :: rest =>
    match aiPart s cur part with
    | none => none
    | some s1 => aiParts s1 cur rest

/-- one iteration of the reply-line loop of app.py lines 104-121: a line
containing a participant name and a colon switches the current
participant; otherwise, when a current participant is set (and nonempty —
Python truthiness) and the line contains `=`, its comma-separated parts
are processed. -/
def aiLine (p1 p2 : String) (cur : Option String) (s : Scores)
    (rawLine : List Char) : Option (Option String × Scores) :=
  if substrIn p1.data (pyStrip rawLine) && substrIn [':'] (pyStrip rawLine)
  then some (some p1, s)
  else if substrIn p2.data (pyStrip rawLine) &&
      substrIn [':'] (pyStrip rawLine) then some (some p2, s)
  else
    match cur with
    | some c =>
      if (c != "") && substrIn ['='] (pyStrip rawLine) then
        match aiParts s c (splitChar ',' (pyStrip rawLine)) with
        | none => none
        | some s1 => some (some c, s1)
      else some (some c, s)
    | none => some (none, s)

/-- the reply-line loop of `parse_ai_scores`. -/
def aiLoop (p1 p2 : String) (cur : Option String) (s : Scores) :
    List (List Char) → Option Scores
  | [] => some s
  | l :: rest =>
    match aiLine p1 p2 cur s l with
    | none => none
    | some (cur1, s1) => aiLoop p1 p2 cur1 s1 rest

/-- app.py lines 99-122: the tolerant parser of the remote model's free
text reply. -/
def parse_ai_scores (text : String) (p1 p2 : String) : Option Scores :=
  aiLoop p1 p2 none (initScores5 p1 p2) (splitChar '\n' text.data)

/-- the observable outcome of the `requests.post` call of app.py lines
83-89: either the call raises (network failure), or it returns a status
code together with the completion text extracted from the JSON body —
`none` when `response.json()['choices'][0]['message']['content']`
raises. -/
inductive RemoteResult where
  | transportError : RemoteResult
  | response (status : Nat) (content : Option String) : RemoteResult

/-- app.py lines 66-97: `calculate_scores`.  The bare `except:` catches
everything raised inside the `try` (the transport call, the JSON
extraction, `parse_ai_scores`, and a first `fallback_scores` call on the
non-200 path) and answers with `fallback_scores`; when `fallback_scores`
itself raises a KeyError the exception propagates to the caller, which the
`Option` result models. -/
def calculate_scores (r : RemoteResult) (msgs : List Msg)
    (person_a person_b : String) : Option Scores :=
  match r with
  | .transportError => fallback_scores msgs person_a person_b
  | .response status content =>
    if status = 200 then
      match content with
      | none => fallback_scores msgs person_a person_b
      | some text =>
        match parse_ai_scores text person_a person_b with
        | none => fallback_scores msgs person_a person_b
        | some s => some s
    else fallback_scores msgs person_a person_b

/-- the reply outcomes the code absorbs by falling back: a raised
transport call, a non-200 status, a body without extractable completion
text, or a reply text on which `parse_ai_scores` raises. -/
def remoteFailed (r : RemoteResult) (p1 p2 : String) : Bool :=
  match r with
  | .transportError => true
  | .response status content =>
    status != 200 ||
    (match content with
     | none => true
     | some text => (parse_ai_scores text p1 p2).isNone)

/-- Python `round(x, 1)` modelled over the rationals. -/
def round1 (x : ℚ) : ℚ := ((round (10 * x) : ℤ) : ℚ) / 10

/-- one row of the report built by app.py lines 333-343 (the explanation
string is omitted — it never affects the percentages). -/
structure RoleRow where
  name : String
  you : ℚ
  them : ℚ
deriving DecidableEq, Repr

/-- the fixed display list of app.py line 334. -/
def roleOrder : List (String × String) :=
  [("starter", "Conversation Starter"), ("snubber", "Snubber"),
   ("romantic", "Romantic One"), ("trouble", "Trouble One"),
   ("fault", "At Fault"), ("listener", "Listener"), ("joker", "Joker")]

/-- the body of the roles loop for one role key: the two dict lookups
`scores[you][role_key]` and `scores[them][role_key]` (KeyError as `none`),
the combined total, and the two percentages rounded to one decimal, with a
non-positive total special-cased to `(0, 0)` by the `if total > 0`
guards. -/
def roleEntry (s : Scores) (you them : String) (rk : String) :
    Option (ℚ × ℚ) :=
  match sget s you rk, sget s them rk with
  | some cy, some ct =>
    if 0 < cy + ct then
      some (round1 ((cy : ℚ) / ((cy + ct : Int) : ℚ) * 100),
            round1 ((ct : ℚ) / ((cy + ct : Int) : ℚ) * 100))
    else some (0, 0)
  | _, _ => none

/-- the roles loop of app.py lines 333-343; a KeyError on any role aborts
the whole report, which `none` models. -/
def reportLoop (s : Scores) (you them : String) :
    List (String × String) → Option (List RoleRow)
  | [] => some []
  | (rk, rn) :: rest =>
    match roleEntry s you them rk with
    | none => none
    | some (pctYou, pctThem) =>
      match reportLoop s you them rest with
      | none => none
      | some rows => some (⟨rn, pctYou, pctThem⟩ :: rows)

/-- the role report of `select_identity` (app.py lines 333-343). -/
def buildReport (s : Scores) (you them : String) : Option (List RoleRow) :=
  reportLoop s you them roleOrder

/-! Lemmas on the dict model. -/

theorem dget_dset_eq {α : Type} (d : List (String × α)) (k : String) (v : α) :
    dget (dset d k v) k = some v := by
  induction d with
  | nil => simp [dset, dget]
  | cons hd tl ih =>
    obtain ⟨k0, v0⟩ := hd
    by_cases h : k0 = k
    · simp [dset, dget, h]
    · simp [dset, dget, h, ih]

theorem dget_dset_ne {α : Type} (d : List (String × α)) (key k : String)
    (v : α) (h : key ≠ k) : dget (dset d key v) k = dget d k := by
  induction d with
  | nil => simp [dset, dget, h]
  | cons hd tl ih =>
    obtain ⟨k0, v0⟩ := hd
    by_cases h0 : k0 = key
    · subst h0; simp [dset, dget, h, Ne.symm h]
    · by_cases h1 : k0 = k <;> simp [dset, dget, h0, h1, ih, Ne.symm h]

theorem dget_mem {α : Type} (d : List (String × α)) (k : String) (v : α)
    (h : dget d k = some v) : (k, v) ∈ d := by
  induction d with
  | nil => cases h
  | cons hd tl ih =>
    obtain ⟨k0, v0⟩ := hd
    by_cases hk : k0 = k
    · subst hk
      simp [dget] at h
      simp [h]
    · simp [dget, hk] at h
      exact List.mem_cons_of_mem _ (ih h)

theorem sget_some (s : Scores) (p r : String) (v : Int)
    (h : sget s p r = some v) :
    ∃ d, dget s p = some d ∧ dget d r = some v := by
  unfold sget at h
  cases hd : dget s p with
  | none => rw [hd] at h; simp at h
  | some d => rw [hd] at h; exact ⟨d, rfl, h⟩

theorem sget_of (s : Scores) (p r : String) (d : RoleDict) (v : Int)
    (hd : dget s p = some d) (hr : dget d r = some v) :
    sget s p r = some v := by
  unfold sget; rw [hd]; exact hr

theorem bump_ok (s : Scores) (p r : String) (v : Int)
    (h : sget s p r = some v) :
    ∃ s', bump s p r = some s' ∧ sget s' p r = some (v + 1) ∧
      ∀ q rk, (q ≠ p ∨ rk ≠ r) → sget s' q rk = sget s q rk := by
  obtain ⟨d, hd, hr⟩ := sget_some s p r v h
  refine ⟨dset s p (dset d r (v + 1)), ?_, ?_, ?_⟩
  · simp [bump, hd, hr]
  · exact sget_of _ _ _ _ _ (dget_dset_eq _ _ _) (dget_dset_eq _ _ _)
  · intro q rk hqr
    unfold sget
    by_cases hq : q = p
    · subst hq
      rw [dget_dset_eq, hd]
      have hrk : rk ≠ r := by tauto
      show dget (dset d r (v + 1)) rk = dget d rk
      rw [dget_dset_ne _ _ _ _ (Ne.symm hrk)]
    · rw [dget_dset_ne _ _ _ _ (fun hh => hq hh.symm)]

theorem bump_some_sget (s s' : Scores) (p r : String)
    (h : bump s p r = some s') : ∃ v, sget s p r = some v := by
  unfold bump at h
  cases hd : dget s p with
  | none => rw [hd] at h; simp at h
  | some d =>
    rw [hd] at h
    cases hr : dget d r with
    | none =>
      exfalso
      have h2 : (match dget d r with
        | none => none
        | some v => some (dset s p (dset d r (v + 1)))) = some s' := h
      rw [hr] at h2
      simp at h2
    | some v => exact ⟨v, sget_of _ _ _ _ _ hd hr⟩

theorem bump_isSome_eq (s s' : Scores) (p r : String)
    (h : bump s p r = some s') (q rk : String) :
    (sget s' q rk).isSome = (sget s q rk).isSome := by
  obtain ⟨v, hv⟩ := bump_some_sget s s' p r h
  obtain ⟨s'', h1, h2, h3⟩ := bump_ok s p r v hv
  rw [h1] at h
  injection h with h
  subst h
  by_cases hq : q = p ∧ rk = r
  · obtain ⟨rfl, rfl⟩ := hq
    rw [h2, hv]
    rfl
  · rw [h3 q rk (by tauto)]

theorem bumpIf_ok (c : Bool) (s : Scores) (p r : String) (v : Int)
    (h : sget s p r = some v) :
    ∃ s', bumpIf c s p r = some s' ∧
      sget s' p r = some (v + (if c then 1 else 0)) ∧
      ∀ q rk, (q ≠ p ∨ rk ≠ r) → sget s' q rk = sget s q rk := by
  cases c with
  | false => exact ⟨s, rfl, by simpa using h, fun _ _ _ => rfl⟩
  | true =>
    obtain ⟨s', h1, h2, h3⟩ := bump_ok s p r v h
    exact ⟨s', h1, by simpa using h2, h3⟩

theorem bumpIf_isSome_eq (c : Bool) (s s' : Scores) (p r : String)
    (h : bumpIf c s p r = some s') (q rk : String) :
    (sget s' q rk).isSome = (sget s q rk).isSome := by
  cases c with
  | false =>
    simp only [bumpIf, if_neg] at h
    injection h with h
    subst h
    rfl
  | true => exact bump_isSome_eq s s' p r h q rk

/-- every count stored in the dict is non-negative. -/
def NonnegS (s : Scores) : Prop := ∀ q rk v, sget s q rk = some v → 0 ≤ v

theorem bumpIf_nonneg (c : Bool) (s s' : Scores) (p r : String)
    (hn : NonnegS s) (h : bumpIf c s p r = some s') : NonnegS s' := by
  cases c with
  | false =>
    simp only [bumpIf, if_neg] at h
    injection h with h
    subst h
    exact hn
  | true =>
    simp only [bumpIf, if_pos] at h
    obtain ⟨v, hv⟩ := bump_some_sget s s' p r h
    obtain ⟨s'', h1, h2, h3⟩ := bump_ok s p r v hv
    rw [h1] at h
    injection h with h
    subst h
    intro q rk w hw
    by_cases hq : q = p ∧ rk = r
    · obtain ⟨rfl, rfl⟩ := hq
      rw [h2] at hw
      injection hw with hw
      have := hn q rk v hv
      omega
    · rw [h3 q rk (by tauto)] at hw
      exact hn q rk w hw

/-- the seven role keys of the heuristic counter dicts. -/
def roleKeys7 : List String :=
  ["starter", "snubber", "romantic", "trouble", "fault", "listener", "joker"]

/-- all seven role counters of participant `p` are present in the dict. -/
def OkS (s : Scores) (p : String) : Prop :=
  ∀ rk ∈ roleKeys7, (sget s p rk).isSome = true

theorem bumpIf_keep (c : Bool) (s : Scores) (p r a b : String)
    (ha : OkS s a) (hb : OkS s b) (hp : p = a ∨ p = b) (hr : r ∈ roleKeys7) :
    ∃ s', bumpIf c s p r = some s' ∧ OkS s' a ∧ OkS s' b := by
  have hv : (sget s p r).isSome = true := by
    cases hp with
    | inl h => subst h; exact ha r hr
    | inr h => subst h; exact hb r hr
  cases hsv : sget s p r with
  | none => rw [hsv] at hv; cases hv
  | some v =>
    obtain ⟨s', h1, _, _⟩ := bumpIf_ok c s p r v hsv
    refine ⟨s', h1, ?_, ?_⟩
    · intro rk hrk
      rw [bumpIf_isSome_eq c s s' p r h1 a rk]
      exact ha rk hrk
    · intro rk hrk
      rw [bumpIf_isSome_eq c s s' p r h1 b rk]
      exact hb rk hrk

theorem snubberBlock_keep (lastT : Int) (lastS lastM : String) (s : Scores)
    (m : Msg) (a b : String) (ha : OkS s a) (hb : OkS s b)
    (hp : m.sender = a ∨ m.sender = b) :
    ∃ s', snubberBlock lastT lastS lastM s m = some s' ∧ OkS s' a ∧ OkS s' b := by
  have hsn : "snubber" ∈ roleKeys7 := by simp [roleKeys7]
  unfold snubberBlock
  cases hg : ((lastS != "") && (lastS != m.sender)) with
  | false => simp only [hg, Bool.false_eq_true, if_false]; exact ⟨s, rfl, ha, hb⟩
  | true =>
    simp only [hg, if_true]
    obtain ⟨s1, e1, ha1, hb1⟩ :=
      bumpIf_keep (snubRuleA lastT m) s m.sender "snubber" a b ha hb hp hsn
    simp only [e1]
    obtain ⟨s2, e2, ha2, hb2⟩ :=
      bumpIf_keep (snubRuleB m) s1 m.sender "snubber" a b ha1 hb1 hp hsn
    simp only [e2]
    exact bumpIf_keep (snubRuleC lastM m) s2 m.sender "snubber" a b ha2 hb2 hp hsn

theorem stepTail_keep (s2 : Scores) (m : Msg) (a b : String)
    (ha2 : OkS s2 a) (hb2 : OkS s2 b) (hp : m.sender = a ∨ m.sender = b) :
    ∃ s',
      (Option.bind (bumpIf (romanticEmojiHit m.message.data) s2 m.sender
          "romantic") fun s3 =>
       Option.bind (bumpIf (romanticWordHit m.message.data) s3 m.sender
          "romantic") fun s4 =>
       Option.bind (bumpIf (troubleHit m.message.data) s4 m.sender "trouble")
          fun s5 =>
       Option.bind (bumpIf (faultHit m.message.data) s5 m.sender "fault")
          fun s6 =>
       Option.bind (bumpIf (listenerHit m.message.data) s6 m.sender
          "listener") fun s7 =>
       bumpIf (jokerHit m.message.data) s7 m.sender "joker") = some s' ∧
      OkS s' a ∧ OkS s' b := by
  obtain ⟨s3, e3, ha3, hb3⟩ :=
    bumpIf_keep (romanticEmojiHit m.message.data) s2 m.sender "romantic" a b
      ha2 hb2 hp (by simp [roleKeys7])
  obtain ⟨s4, e4, ha4, hb4⟩ :=
    bumpIf_keep (romanticWordHit m.message.data) s3 m.sender "romantic" a b
      ha3 hb3 hp (by simp [roleKeys7])
  obtain ⟨s5, e5, ha5, hb5⟩ :=
    bumpIf_keep (troubleHit m.message.data) s4 m.sender "trouble" a b
      ha4 hb4 hp (by simp [roleKeys7])
  obtain ⟨s6, e6, ha6, hb6⟩ :=
    bumpIf_keep (faultHit m.message.data) s5 m.sender "fault" a b
      ha5 hb5 hp (by simp [roleKeys7])
  obtain ⟨s7, e7, ha7, hb7⟩ :=
    bumpIf_keep (listenerHit m.message.data) s6 m.sender "listener" a b
      ha6 hb6 hp (by simp [roleKeys7])
  obtain ⟨s8, e8, ha8, hb8⟩ :=
    bumpIf_keep (jokerHit m.message.data) s7 m.sender "joker" a b
      ha7 hb7 hp (by simp [roleKeys7])
  refine ⟨s8, ?_, ha8, hb8⟩
  simp only [e3, Option.some_bind, e4, e5, e6, e7, e8]

theorem stepMsg_keep (prev : Option (Int × String × String)) (s : Scores)
    (m : Msg) (a b : String) (ha : OkS s a) (hb : OkS s b)
    (hp : m.sender = a ∨ m.sender = b) :
    ∃ s', stepMsg prev s m = some s' ∧ OkS s' a ∧ OkS s' b := by
  cases prev with
  | none =>
    obtain ⟨s1, e1, ha1, hb1⟩ :=
      bumpIf_keep (starterCond none m) s m.sender "starter" a b ha hb hp
        (by simp [roleKeys7])
    obtain ⟨s', e', ha', hb'⟩ := stepTail_keep s1 m a b ha1 hb1 hp
    refine ⟨s', ?_, ha', hb'⟩
    simp only [stepMsg, e1, Option.some_bind]
    exact e'
  | some tsl =>
    obtain ⟨t, ls, lm⟩ := tsl
    obtain ⟨s1, e1, ha1, hb1⟩ :=
      bumpIf_keep (starterCond (some (t, ls, lm)) m) s m.sender "starter" a b
        ha hb hp (by simp [roleKeys7])
    obtain ⟨s2, e2, ha2, hb2⟩ := snubberBlock_keep t ls lm s1 m a b ha1 hb1 hp
    obtain ⟨s', e', ha', hb'⟩ := stepTail_keep s2 m a b ha2 hb2 hp
    refine ⟨s', ?_, ha', hb'⟩
    simp only [stepMsg, e1, Option.some_bind, e2]
    exact e'

theorem fallbackLoop_keep (msgs : List Msg) :
    ∀ (s : Scores) (prev : Option (Int × String × String)) (a b : String),
      OkS s a → OkS s b → (∀ m ∈ msgs, m.sender = a ∨ m.sender = b) →
      ∃ s', fallbackLoop s prev msgs = some s' := by
  induction msgs with
  | nil => intro s prev a b _ _ _; exact ⟨s, rfl⟩
  | cons m rest ih =>
    intro s prev a b ha hb hsend
    obtain ⟨s1, e1, ha1, hb1⟩ :=
      stepMsg_keep prev s m a b ha hb (hsend m (List.mem_cons_self m rest))
    obtain ⟨s', e'⟩ := ih s1 (some (m.timestamp, m.sender, m.message)) a b ha1
      hb1 (fun m2 h2 => hsend m2 (List.mem_cons_of_mem m h2))
    refine ⟨s', ?_⟩
    simp only [fallbackLoop, e1, e']

theorem snubberBlock_nonneg (lastT : Int) (lastS lastM : String) (s : Scores)
    (m : Msg) (s' : Scores) (hn : NonnegS s)
    (h : snubberBlock lastT lastS lastM s m = some s') : NonnegS s' := by
  unfold snubberBlock at h
  cases hg : ((lastS != "") && (lastS != m.sender)) with
  | false =>
    simp only [hg, Bool.false_eq_true, if_false] at h
    injection h with h
    subst h
    exact hn
  | true =>
    simp only [hg, if_true] at h
    cases e1 : bumpIf (snubRuleA lastT m) s m.sender "snubber" with
    | none => rw [e1] at h; simp at h
    | some s1 =>
      rw [e1] at h
      simp only [] at h
      have hn1 := bumpIf_nonneg _ s s1 _ _ hn e1
      cases e2 : bumpIf (snubRuleB m) s1 m.sender "snubber" with
      | none => rw [e2] at h; simp at h
      | some s2 =>
        rw [e2] at h
        simp only [] at h
        have hn2 := bumpIf_nonneg _ s1 s2 _ _ hn1 e2
        exact bumpIf_nonneg _ s2 s' _ _ hn2 h

theorem stepMsg_nonneg (prev : Option (Int × String × String)) (s : Scores)
    (m : Msg) (s' : Scores) (hn : NonnegS s)
    (h : stepMsg prev s m = some s') : NonnegS s' := by
  unfold stepMsg at h
  simp only [Option.bind_eq_some] at h
  obtain ⟨s1, e1, s2, e2, s3, e3, s4, e4, s5, e5, s6, e6, s7, e7, e8⟩ := h
  have hn1 := bumpIf_nonneg _ s s1 _ _ hn e1
  have hn2 : NonnegS s2 := by
    cases prev with
    | none =>
      simp only [] at e2
      injection e2 with e2
      subst e2
      exact hn1
    | some tsl =>
      obtain ⟨t, ls, lm⟩ := tsl
      simp only [] at e2
      exact snubberBlock_nonneg t ls lm s1 m s2 hn1 e2
  have hn3 := bumpIf_nonneg _ s2 s3 _ _ hn2 e3
  have hn4 := bumpIf_nonneg _ s3 s4 _ _ hn3 e4
  have hn5 := bumpIf_nonneg _ s4 s5 _ _ hn4 e5
  have hn6 := bumpIf_nonneg _ s5 s6 _ _ hn5 e6
  have hn7 := bumpIf_nonneg _ s6 s7 _ _ hn6 e7
  exact bumpIf_nonneg _ s7 s' _ _ hn7 e8

theorem fallbackLoop_nonneg (msgs : List Msg) :
    ∀ (s : Scores) (prev : Option (Int × String × String)) (s' : Scores),
      NonnegS s → fallbackLoop s prev msgs = some s' → NonnegS s' := by
  induction msgs with
  | nil =>
    intro s prev s' hn h
    simp only [fallbackLoop] at h
    injection h with h
    subst h
    exact hn
  | cons m rest ih =>
    intro s prev s' hn h
    simp only [fallbackLoop] at h
    cases e1 : stepMsg prev s m with
    | none => rw [e1] at h; simp at h
    | some s1 =>
      rw [e1] at h
      simp only [] at h
      exact ih s1 _ s' (stepMsg_nonneg prev s m s1 hn e1) h

theorem initRoles7_dget (rk : String) (v : Int)
    (h : dget initRoles7 rk = some v) : v = 0 := by
  have hm := dget_mem _ _ _ h
  simp [initRoles7] at hm
  rcases hm with ⟨_, h0⟩ | ⟨_, h0⟩ | ⟨_, h0⟩ | ⟨_, h0⟩ | ⟨_, h0⟩ | ⟨_, h0⟩ |
    ⟨_, h0⟩ <;> exact h0

theorem initScores7_dget (a b q : String) (d : RoleDict)
    (h : dget (initScores7 a b) q = some d) : d = initRoles7 := by
  have hm := dget_mem _ _ _ h
  by_cases hab : a = b
  · subst hab
    simp [initScores7, dset] at hm
    exact hm.2
  · simp [initScores7, dset, hab] at hm
    rcases hm with ⟨_, h0⟩ | ⟨_, h0⟩ <;> exact h0

theorem initScores7_nonneg (a b : String) : NonnegS (initScores7 a b) := by
  intro q rk v hv
  obtain ⟨d, hd, hr⟩ := sget_some _ _ _ _ hv
  have hd7 := initScores7_dget a b q d hd
  subst hd7
  have h0 := initRoles7_dget rk v hr
  omega

theorem initScores7_dget_a (a b : String) :
    dget (initScores7 a b) a = some initRoles7 := by
  unfold initScores7
  by_cases hab : a = b
  · subst hab
    exact dget_dset_eq _ _ _
  · rw [dget_dset_ne _ _ _ _ (Ne.symm hab)]
    exact dget_dset_eq _ _ _

theorem initScores7_dget_b (a b : String) :
    dget (initScores7 a b) b = some initRoles7 := by
  unfold initScores7
  exact dget_dset_eq _ _ _

theorem initScores7_ok (a b : String) :
    OkS (initScores7 a b) a ∧ OkS (initScores7 a b) b := by
  constructor
  · intro rk hrk
    have hd := initScores7_dget_a a b
    simp [roleKeys7] at hrk
    rcases hrk with rfl | rfl | rfl | rfl | rfl | rfl | rfl <;>
      simp [sget, hd, initRoles7, dget]
  · intro rk hrk
    have hd := initScores7_dget_b a b
    simp [roleKeys7] at hrk
    rcases hrk with rfl | rfl | rfl | rfl | rfl | rfl | rfl <;>
      simp [sget, hd, initRoles7, dget]

theorem fallback_scores_nonneg (msgs : List Msg) (a b : String) (s : Scores)
    (h : fallback_scores msgs a b = some s) : NonnegS s :=
  fallbackLoop_nonneg msgs _ none s (initScores7_nonneg a b) h

theorem fallback_scores_total (msgs : List Msg) (a b : String)
    (h : ∀ m ∈ msgs, m.sender = a ∨ m.sender = b) :
    ∃ s, fallback_scores msgs a b = some s := by
  obtain ⟨hoa, hob⟩ := initScores7_ok a b
  exact fallbackLoop_keep msgs _ none a b hoa hob h

/-! Lemmas on the remote-reply parser: its dicts never acquire a
`listener` key. -/

/-- no counter dict stored in the scores has a `listener` key. -/
def NoListener (s : Scores) : Prop :=
  ∀ q d, dget s q = some d → dget d "listener" = none

theorem initScores5_dget (p1 p2 q : String) (d : RoleDict)
    (h : dget (initScores5 p1 p2) q = some d) : d = initRoles5 := by
  have hm := dget_mem _ _ _ h
  by_cases hab : p1 = p2
  · subst hab
    simp [initScores5, dset] at hm
    exact hm.2
  · simp [initScores5, dset, hab] at hm
    rcases hm with ⟨_, h0⟩ | ⟨_, h0⟩ <;> exact h0

theorem initScores5_noListener (p1 p2 : String) :
    NoListener (initScores5 p1 p2) := by
  intro q d hd
  rw [initScores5_dget p1 p2 q d hd]
  decide

theorem aiPart_noListener (s : Scores) (cur : String) (part : List Char)
    (s' : Scores) (hn : NoListener s) (h : aiPart s cur part = some s') :
    NoListener s' := by
  unfold aiPart at h
  by_cases hin : substrIn ['='] part = true
  · rw [if_pos hin] at h
    cases hsp : splitChar '=' part with
    | nil => rw [hsp] at h; simp at h
    | cons q1 rest1 =>
      cases rest1 with
      | nil => rw [hsp] at h; simp at h
      | cons q2 rest2 =>
        cases rest2 with
        | cons q3 rest3 => rw [hsp] at h; simp at h
        | nil =>
          rw [hsp] at h
          simp only [] at h
          cases hpy : pyInt q2 with
          | none =>
            rw [hpy] at h
            simp only [] at h
            injection h with h
            subst h
            exact hn
          | some n =>
            rw [hpy] at h
            simp only [] at h
            cases hd : dget s cur with
            | none => rw [hd] at h; simp at h
            | some d =>
              rw [hd] at h
              simp only [] at h
              by_cases hrole :
                  (dget d (String.mk (lowerStr (pyStrip q1)))).isSome = true
              · rw [if_pos hrole] at h
                injection h with h
                subst h
                intro q e he
                have hdl : dget d "listener" = none := hn cur d hd
                by_cases hq : q = cur
                · subst hq
                  rw [dget_dset_eq] at he
                  injection he with he
                  subst he
                  by_cases hrl :
                      String.mk (lowerStr (pyStrip q1)) = "listener"
                  · rw [hrl, hdl] at hrole
                    simp at hrole
                  · rw [dget_dset_ne _ _ _ _ hrl]
                    exact hdl
                · rw [dget_dset_ne _ _ _ _ (fun hh => hq hh.symm)] at he
                  exact hn q e he
              · rw [if_neg hrole] at h
                injection h with h
                subst h
                exact hn
  · rw [if_neg hin] at h
    injection h with h
    subst h
    exact hn

theorem aiParts_noListener (parts : List (List Char)) :
    ∀ (s : Scores) (cur : String) (s' : Scores), NoListener s →
      aiParts s cur parts = some s' → NoListener s' := by
  induction parts with
  | nil =>
    intro s cur s' hn h
    simp only [aiParts] at h
    injection h with h
    subst h
    exact hn
  | cons part rest ih =>
    intro s cur s' hn h
    simp only [aiParts] at h
    cases e1 : aiPart s cur part with
    | none => rw [e1] at h; simp at h
    | some s1 =>
      rw [e1] at h
      simp only [] at h
      exact ih s1 cur s' (aiPart_noListener s cur part s1 hn e1) h

theorem aiLine_noListener (p1 p2 : String) (cur : Option String) (s : Scores)
    (l : List Char) (cur' : Option String) (s' : Scores) (hn : NoListener s)
    (h : aiLine p1 p2 cur s l = some (cur', s')) : NoListener s' := by
  unfold aiLine at h
  by_cases h1 : (substrIn p1.data (pyStrip l) &&
      substrIn [':'] (pyStrip l)) = true
  · rw [if_pos h1] at h
    injection h with h
    injection h with ha hb
    subst hb
    exact hn
  · rw [if_neg h1] at h
    by_cases h2 : (substrIn p2.data (pyStrip l) &&
        substrIn [':'] (pyStrip l)) = true
    · rw [if_pos h2] at h
      injection h with h
      injection h with ha hb
      subst hb
      exact hn
    · rw [if_neg h2] at h
      cases cur with
      | none =>
        simp only [] at h
        injection h with h
        injection h with ha hb
        subst hb
        exact hn
      | some c =>
        simp only [] at h
        by_cases h3 : ((c != "") && substrIn ['='] (pyStrip l)) = true
        · rw [if_pos h3] at h
          cases e1 : aiParts s c (splitChar ',' (pyStrip l)) with
          | none => rw [e1] at h; simp at h
          | some s1 =>
            rw [e1] at h
            simp only [] at h
            injection h with h
            injection h with ha hb
            subst hb
            exact aiParts_noListener _ s c s1 hn e1
        · rw [if_neg h3] at h
          injection h with h
          injection h with ha hb
          subst hb
          exact hn

theorem aiLoop_noListener (lines : List (List Char)) :
    ∀ (p1 p2 : String) (cur : Option String) (s : Scores) (s' : Scores),
      NoListener s → aiLoop p1 p2 cur s lines = some s' → NoListener s' := by
  induction lines with
  | nil =>
    intro p1 p2 cur s s' hn h
    simp only [aiLoop] at h
    injection h with h
    subst h
    exact hn
  | cons l rest ih =>
    intro p1 p2 cur s s' hn h
    simp only [aiLoop] at h
    cases e1 : aiLine p1 p2 cur s l with
    | none => rw [e1] at h; simp at h
    | some cs1 =>
      obtain ⟨cur1, s1⟩ := cs1
      rw [e1] at h
      simp only [] at h
      exact ih p1 p2 cur1 s1 s' (aiLine_noListener p1 p2 cur s l cur1 s1 hn e1) h

theorem parse_ai_scores_noListener (text : String) (p1 p2 : String)
    (s : Scores) (h : parse_ai_scores text p1 p2 = some s) : NoListener s := by
  unfold parse_ai_scores at h
  exact aiLoop_noListener _ p1 p2 none _ s (initScores5_noListener p1 p2) h

theorem roleEntry_listener_none (s : Scores) (you them : String)
    (hn : NoListener s) : roleEntry s you them "listener" = none := by
  unfold roleEntry
  have h1 : sget s you "listener" = none := by
    unfold sget
    cases hd : dget s you with
    | none => rfl
    | some d => exact hn you d hd
  rw [h1]

theorem reportLoop_listener_none (s : Scores) (you them : String)
    (l : List (String × String)) (rn : String) (hmem : ("listener", rn) ∈ l)
    (hrk : roleEntry s you them "listener" = none) :
    reportLoop s you them l = none := by
  induction l with
  | nil => cases hmem
  | cons hd tl ih =>
    obtain ⟨k, n⟩ := hd
    rcases List.mem_cons.mp hmem with heq | hmem2
    · injection heq with h1 h2
      subst h1
      simp only [reportLoop, hrk]
    · simp only [reportLoop]
      rw [ih hmem2]
      cases he : roleEntry s you them k with
      | none => rfl
      | some pq =>
        obtain ⟨p, q⟩ := pq
        rfl

theorem buildReport_noListener (s : Scores) (you them : String)
    (hn : NoListener s) : buildReport s you them = none := by
  unfold buildReport
  exact reportLoop_listener_none s you them roleOrder "Listener"
    (by simp [roleOrder]) (roleEntry_listener_none s you them hn)

/-! Lemmas on `calculate_scores`. -/

theorem calc_of_failed (r : RemoteResult) (msgs : List Msg) (a b : String)
    (h : remoteFailed r a b = true) :
    calculate_scores r msgs a b = fallback_scores msgs a b := by
  cases r with
  | transportError => rfl
  | response status content =>
    by_cases hst : status = 200
    · subst hst
      cases content with
      | none => rfl
      | some text =>
        simp only [remoteFailed, bne_self_eq_false, Bool.false_or] at h
        cases hp : parse_ai_scores text a b with
        | none =>
          show (match parse_ai_scores text a b with
            | none => fallback_scores msgs a b
            | some s => some s) = fallback_scores msgs a b
          rw [hp]
        | some s0 => rw [hp] at h; simp at h
    · show (if status = 200 then _ else fallback_scores msgs a b) =
        fallback_scores msgs a b
      rw [if_neg hst]

theorem calculate_scores_cases (r : RemoteResult) (msgs : List Msg)
    (a b : String) (s : Scores) (h : calculate_scores r msgs a b = some s) :
    (∃ text, r = .response 200 (some text) ∧
      parse_ai_scores text a b = some s) ∨
    fallback_scores msgs a b = some s := by
  cases r with
  | transportError => right; exact h
  | response status content =>
    by_cases hst : status = 200
    · subst hst
      cases content with
      | none => right; exact h
      | some text =>
        have h2 : (match parse_ai_scores text a b with
          | none => fallback_scores msgs a b
          | some s => some s) = some s := h
        cases hp : parse_ai_scores text a b with
        | none => right; rw [hp] at h2; exact h2
        | some s0 =>
          left
          rw [hp] at h2
          simp only [] at h2
          injection h2 with h2
          subst h2
          exact ⟨text, rfl, hp⟩
    · right
      cases content with
      | none =>
        have h2 : (if status = 200 then fallback_scores msgs a b
            else fallback_scores msgs a b) = some s := h
        rw [if_neg hst] at h2
        exact h2
      | some text =>
        have h2 : (if status = 200 then
            (match parse_ai_scores text a b with
             | none => fallback_scores msgs a b
             | some s => some s)
            else fallback_scores msgs a b) = some s := h
        rw [if_neg hst] at h2
        exact h2

/-! Rounding arithmetic for the aggregator. -/

theorem round1_sum_near (x y : ℚ) (hxy : x + y = 100) :
    |round1 x + round1 y - 100| ≤ 1 / 10 := by
  have h1 : |10 * x - ((round (10 * x) : ℤ) : ℚ)| ≤ 1 / 2 :=
    abs_sub_round (10 * x)
  have h2 : |10 * y - ((round (10 * y) : ℤ) : ℚ)| ≤ 1 / 2 :=
    abs_sub_round (10 * y)
  have key : |(((round (10 * x) : ℤ) : ℚ) + ((round (10 * y) : ℤ) : ℚ)) -
      1000| ≤ 1 := by
    have heq : (((round (10 * x) : ℤ) : ℚ) + ((round (10 * y) : ℤ) : ℚ)) -
        1000 = -((10 * x - ((round (10 * x) : ℤ) : ℚ)) +
          (10 * y - ((round (10 * y) : ℤ) : ℚ))) := by
      linear_combination 10 * hxy
    rw [heq, abs_neg]
    calc |(10 * x - ((round (10 * x) : ℤ) : ℚ)) +
          (10 * y - ((round (10 * y) : ℤ) : ℚ))| ≤
        |10 * x - ((round (10 * x) : ℤ) : ℚ)| +
          |10 * y - ((round (10 * y) : ℤ) : ℚ)| := abs_add _ _
      _ ≤ 1 := by linarith
  have hrepr : round1 x + round1 y - 100 =
      ((((round (10 * x) : ℤ) : ℚ) + ((round (10 * y) : ℤ) : ℚ)) - 1000) /
        10 := by
    unfold round1
    ring
  rw [hrepr, abs_div]
  have h10 : |(10 : ℚ)| = 10 := by norm_num
  rw [h10]
  linarith

/-- the snubber block increments the sender's snubber counter by the sum
of the three independent rule indicators whenever the guard holds. -/
theorem snubberBlock_counts (lastT : Int) (lastS lastM : String) (s : Scores)
    (m : Msg) (v : Int) (h1 : lastS ≠ "") (h2 : lastS ≠ m.sender)
    (hv : sget s m.sender "snubber" = some v) :
    ∃ s', snubberBlock lastT lastS lastM s m = some s' ∧
      sget s' m.sender "snubber" = some
        (v + (if snubRuleA lastT m then 1 else 0) +
          (if snubRuleB m then 1 else 0) +
          (if snubRuleC lastM m then 1 else 0)) := by
  have hg : ((lastS != "") && (lastS != m.sender)) = true := by
    simp only [Bool.and_eq_true, bne_iff_ne]
    exact ⟨h1, h2⟩
  unfold snubberBlock
  rw [if_pos hg]
  obtain ⟨s1, e1, hv1, _⟩ :=
    bumpIf_ok (snubRuleA lastT m) s m.sender "snubber" v hv
  rw [e1]
  simp only []
  obtain ⟨s2, e2, hv2, _⟩ :=
    bumpIf_ok (snubRuleB m) s1 m.sender "snubber" _ hv1
  rw [e2]
  simp only []
  obtain ⟨s3, e3, hv3, _⟩ :=
    bumpIf_ok (snubRuleC lastM m) s2 m.sender "snubber" _ hv2
  exact ⟨s3, e3, hv3⟩

/-- the nested lookup on an optional scores value, used to state concrete
evaluations compactly. -/
def sget2 (os : Option Scores) (p r : String) : Option Int :=
  match os with
  | some s => sget s p r
  | none => none

instance {ε α : Type} [DecidableEq ε] [DecidableEq α] :
    DecidableEq (Except ε α)
  | .error e1, .error e2 =>
    if h : e1 = e2 then isTrue (by rw [h])
    else isFalse fun hh => by
      injection hh with hh
      exact h hh
  | .error _, .ok _ => isFalse fun hh => by injection hh
  | .ok _, .error _ => isFalse fun hh => by injection hh
  | .ok a1, .ok a2 =>
    if h : a1 = a2 then isTrue (by rw [h])
    else isFalse fun hh => by
      injection hh with hh
      exact h hh

/-! The claim theorems. -/

/-- C1: for every input text, `parse_whatsapp_chat` either fails with
exactly the ValueError message of app.py line 63 or returns a participant
list of at least 2 distinct entries, each of which is the sender of some
returned message; it never returns 0 or 1 participants. -/
theorem claim1_parse_two_participants_or_error (text : String) :
    parse_whatsapp_chat text = .error fewParticipantsMsg ∨
    ∃ msgs parts, parse_whatsapp_chat text = .ok (msgs, parts) ∧
      parts.Nodup ∧ 2 ≤ parts.length ∧
      ∀ p ∈ parts, ∃ m ∈ msgs, m.sender = p := by
  unfold parse_whatsapp_chat
  by_cases hlt : ((parsedMsgs text).map (·.sender)).dedup.length < 2
  · left
    rw [if_pos hlt]
  · right
    refine ⟨parsedMsgs text, ((parsedMsgs text).map (·.sender)).dedup, ?_,
      List.nodup_dedup _, by omega, ?_⟩
    · rw [if_neg hlt]
    · intro p hp
      obtain ⟨m, hm, hms⟩ := List.mem_map.mp (List.mem_dedup.mp hp)
      exact ⟨m, hm, hms⟩

/-- C10: whenever `parse_whatsapp_chat` succeeds, every returned message's
sender is a participant, every participant is the sender of at least one
returned message, and every returned message — hence every participant —
comes from a line on which `parseLine` (header match and timestamp parse)
succeeded. -/
theorem claim10_senders_equal_participants (text : String) (msgs : List Msg)
    (parts : List String)
    (h : parse_whatsapp_chat text = .ok (msgs, parts)) :
    (∀ m ∈ msgs, m.sender ∈ parts) ∧
    (∀ p ∈ parts, ∃ m ∈ msgs, m.sender = p) ∧
    (∀ m ∈ msgs, ∃ line ∈ splitChar '\n' text.data,
      parseLine line = some m) := by
  unfold parse_whatsapp_chat at h
  by_cases hlt : ((parsedMsgs text).map (·.sender)).dedup.length < 2
  · rw [if_pos hlt] at h
    simp at h
  · rw [if_neg hlt] at h
    injection h with h
    injection h with h1 h2
    subst h1
    subst h2
    refine ⟨?_, ?_, ?_⟩
    · intro m hm
      exact List.mem_dedup.mpr (List.mem_map_of_mem _ hm)
    · intro p hp
      obtain ⟨m, hm, hms⟩ := List.mem_map.mp (List.mem_dedup.mp hp)
      exact ⟨m, hm, hms⟩
    · intro m hm
      obtain ⟨line, hline, hpl⟩ := List.mem_filterMap.mp hm
      exact ⟨line, hline, hpl⟩

/-- witness input: a two-line chat that parses to two participants. -/
def textW : String :=
  "03/04/2024, 1:00 pm - Carol: ok?\n03/04/2024, 1:05 pm - Dave: fine then mate"

theorem claim10_senders_equal_participants_witness :
    (∃ msgs parts, parse_whatsapp_chat textW = .ok (msgs, parts) ∧
      ((∀ m ∈ msgs, m.sender ∈ parts) ∧
       (∀ p ∈ parts, ∃ m ∈ msgs, m.sender = p) ∧
       (∀ m ∈ msgs, ∃ line ∈ splitChar '\n' textW.data,
         parseLine line = some m))) := by
  refine ⟨(parse_whatsapp_chat textW).toOption.map Prod.fst |>.getD [],
    (parse_whatsapp_chat textW).toOption.map Prod.snd |>.getD [], ?_, ?_⟩
  · rfl
  · exact claim10_senders_equal_participants textW _ _ rfl

/-- C3: whenever the remote adapter fails — the transport call raises, the
status is not 200, the completion text cannot be extracted, or the reply
text makes `parse_ai_scores` raise — `calculate_scores` returns exactly
what `fallback_scores` returns on the identical input, exceptions
included. -/
theorem claim3_remote_failure_fallback (r : RemoteResult) (msgs : List Msg)
    (a b : String) (h : remoteFailed r a b = true) :
    calculate_scores r msgs a b = fallback_scores msgs a b :=
  calc_of_failed r msgs a b h

/-- witness input shared by several witnesses below. -/
def msgsW : List Msg := [⟨0, "Alice", "Hi"⟩, ⟨60, "Bob", "hey lol"⟩]

theorem claim3_remote_failure_fallback_witness :
    remoteFailed (.response 500 none) "Alice" "Bob" = true ∧
    calculate_scores (.response 500 none) msgsW "Alice" "Bob" =
      fallback_scores msgsW "Alice" "Bob" :=
  ⟨by decide,
   claim3_remote_failure_fallback (.response 500 none) msgsW "Alice" "Bob"
     (by decide)⟩

/-- C4 (code evaluation): `parse_ai_scores` initialises and returns
per-participant dicts with exactly the five keys starter, snubber,
romantic, trouble, fault — `listener` and `joker` are absent — and the
aggregation loop of `select_identity` consequently fails with a KeyError
on any scores the remote path produces. -/
theorem claim4_parse_ai_scores_five_keys :
    parse_ai_scores "" "Alice" "Bob" =
      some [("Alice", initRoles5), ("Bob", initRoles5)] ∧
    initRoles5.map Prod.fst =
      ["starter", "snubber", "romantic", "trouble", "fault"] ∧
    dget initRoles5 "listener" = none ∧
    dget initRoles5 "joker" = none ∧
    buildReport [("Alice", initRoles5), ("Bob", initRoles5)] "Alice" "Bob" =
      none := by
  decide

/-- counterexample input for C5: the second message comes from a third
sender and fires the short-message snubber rule. -/
def msgsThird : List Msg := [⟨0, "Alice", "Hi"⟩, ⟨60, "Carol", "hm"⟩]

/-- C5 (counterexample): the heuristic classifier does not record counters
for senders beyond the two selected participants — a message from a third
sender that fires any rule raises a KeyError (modelled by `none`). -/
theorem claim5_third_sender_keyerror :
    fallback_scores msgsThird "Alice" "Bob" = none ∧
    (∃ m ∈ msgsThird, m.sender = "Carol") := by
  decide

/-- C5 (amended): when every sender in the sequence is one of the two
selected participants, the heuristic classifier records counters without
error. -/
theorem claim5_two_senders_no_error (msgs : List Msg) (a b : String)
    (h : ∀ m ∈ msgs, m.sender = a ∨ m.sender = b) :
    ∃ s, fallback_scores msgs a b = some s :=
  fallback_scores_total msgs a b h

theorem claim5_two_senders_no_error_witness :
    (∀ m ∈ msgsW, m.sender = "Alice" ∨ m.sender = "Bob") ∧
    ∃ s, fallback_scores msgsW "Alice" "Bob" = some s :=
  ⟨by decide, claim5_two_senders_no_error msgsW "Alice" "Bob" (by decide)⟩

/-- C6 (counterexample): a successful remote reply naming a participant
and assigning `starter=-1` makes classify return a negative count. -/
theorem claim6_negative_count_from_reply :
    sget2 (calculate_scores (.response 200 (some "Alice:\nstarter=-1")) []
      "Alice" "Bob") "Alice" "starter" = some (-1) ∧ (-1 : Int) < 0 := by
  decide

/-- C6 (amended): whenever classify resolves through the heuristic
fallback (any absorbed remote failure), every count it returns is
non-negative; the remote-reply parser, by contrast, writes whatever
integer the reply supplies, negative values included. -/
theorem claim6_fallback_counts_nonneg (r : RemoteResult) (msgs : List Msg)
    (a b : String) (s : Scores) (hf : remoteFailed r a b = true)
    (h : calculate_scores r msgs a b = some s) :
    ∀ q rk v, sget s q rk = some v → 0 ≤ v := by
  rw [calc_of_failed r msgs a b hf] at h
  exact fallback_scores_nonneg msgs a b s h

/-- the concrete fallback scores of `msgsW`, for witnesses. -/
def sW : Scores := (fallback_scores msgsW "Alice" "Bob").getD []

theorem claim6_fallback_counts_nonneg_witness :
    remoteFailed .transportError "Alice" "Bob" = true ∧
    calculate_scores .transportError msgsW "Alice" "Bob" = some sW ∧
    ∀ q rk v, sget sW q rk = some v → 0 ≤ v := by
  refine ⟨by decide, by decide, ?_⟩
  exact claim6_fallback_counts_nonneg .transportError msgsW "Alice" "Bob" sW
    (by decide) (by decide)

/-- C7 (counterexample): a message of fewer than 4 tokens whose sender
does not differ from the previous sender (here: the first message of the
log) does not increment the snubber counter — rule (b) only fires inside
the sender-changed guard. -/
theorem claim7_short_message_no_increment :
    sget2 (fallback_scores [⟨0, "Alice", "Hi"⟩] "Alice" "Bob") "Alice"
      "snubber" = some 0 ∧ tokCount "Hi".data < 4 := by
  decide

/-- C7 (amended): inside the guarded snubber block — entered exactly when
a previous message exists whose sender is truthy and differs from the
current sender — the three rules are independent triggers: the snubber
counter grows by the sum of the three rule indicators, and the
short-message rule (b) contributes exactly 1 whenever the body has fewer
than 4 tokens, regardless of rules (a) and (c). -/
theorem claim7_snubber_rules_independent (lastT : Int)
    (lastS lastM : String) (s : Scores) (m : Msg) (v : Int)
    (h1 : lastS ≠ "") (h2 : lastS ≠ m.sender)
    (hv : sget s m.sender "snubber" = some v) :
    ∃ s', snubberBlock lastT lastS lastM s m = some s' ∧
      sget s' m.sender "snubber" = some
        (v + (if snubRuleA lastT m then 1 else 0) +
          (if snubRuleB m then 1 else 0) +
          (if snubRuleC lastM m then 1 else 0)) ∧
      (tokCount m.message.data < 4 → snubRuleB m = true) := by
  obtain ⟨s', e, hval⟩ :=
    snubberBlock_counts lastT lastS lastM s m v h1 h2 hv
  refine ⟨s', e, hval, ?_⟩
  intro hlen
  simp [snubRuleB, hlen]

theorem claim7_snubber_rules_independent_witness :
    ("Alice" : String) ≠ "" ∧ ("Alice" : String) ≠ "Bob" ∧
    sget (initScores7 "Alice" "Bob") "Bob" "snubber" = some 0 ∧
    ∃ s', snubberBlock 0 "Alice" "Hi" (initScores7 "Alice" "Bob")
        ⟨60, "Bob", "ok"⟩ = some s' ∧
      sget s' "Bob" "snubber" = some
        (0 + (if snubRuleA 0 ⟨60, "Bob", "ok"⟩ then 1 else 0) +
          (if snubRuleB ⟨60, "Bob", "ok"⟩ then 1 else 0) +
          (if snubRuleC "Hi" ⟨60, "Bob", "ok"⟩ then 1 else 0)) ∧
      (tokCount (Msg.message ⟨60, "Bob", "ok"⟩).data < 4 →
        snubRuleB ⟨60, "Bob", "ok"⟩ = true) := by
  refine ⟨by decide, by decide, by decide, ?_⟩
  exact claim7_snubber_rules_independent 0 "Alice" "Hi"
    (initScores7 "Alice" "Bob") ⟨60, "Bob", "ok"⟩ 0 (by decide) (by decide)
    (by decide)

/-- the first example chat of the spec: a blame question followed nine
hours later by a sarcastic brush-off. -/
def text8 : String :=
  "01/02/2024, 9:00 pm - Alice: Why are you always like this?\n02/02/2024, 6:00 am - Bob: sure..."

/-- the parse of `text8`: timestamps are seconds from 0001-01-01, so
2024-02-01 21:00 and 2024-02-02 06:00 are nine hours apart. -/
def msgs8 : List Msg :=
  [⟨63842418000, "Alice", "Why are you always like this?"⟩,
   ⟨63842450400, "Bob", "sure..."⟩]

/-- C8: parsing the two example lines and running the heuristic classifier
yields Bob starter = 1 (gap ≥ 8h), Bob trouble = 1 (`sure...`), and Alice
fault = 1 (`you always`). -/
theorem claim8_example_gap_sarcasm :
    parse_whatsapp_chat text8 = .ok (msgs8, ["Alice", "Bob"]) ∧
    sget2 (fallback_scores msgs8 "Alice" "Bob") "Bob" "starter" = some 1 ∧
    sget2 (fallback_scores msgs8 "Alice" "Bob") "Bob" "trouble" = some 1 ∧
    sget2 (fallback_scores msgs8 "Alice" "Bob") "Alice" "fault" = some 1 := by
  decide

/-- the second example chat of the spec: a greeting and a quick joking
reply. -/
def text9 : String :=
  "01/02/2024, 10:00 am - Alice: Hi\n01/02/2024, 10:01 am - Bob: hey lol"

/-- the parse of `text9`: 2024-02-01 10:00 and 10:01. -/
def msgs9 : List Msg :=
  [⟨63842378400, "Alice", "Hi"⟩, ⟨63842378460, "Bob", "hey lol"⟩]

/-- C9: parsing the two example lines and running the heuristic classifier
yields Bob joker = 1 and snubber = 1 (short-message rule), with every
other counter of both participants equal to 0. -/
theorem claim9_example_short_chat :
    parse_whatsapp_chat text9 = .ok (msgs9, ["Alice", "Bob"]) ∧
    sget2 (fallback_scores msgs9 "Alice" "Bob") "Bob" "joker" = some 1 ∧
    sget2 (fallback_scores msgs9 "Alice" "Bob") "Bob" "snubber" = some 1 ∧
    tokCount "hey lol".data < 4 ∧
    (∀ rk ∈ roleKeys7,
      sget2 (fallback_scores msgs9 "Alice" "Bob") "Alice" rk = some 0) ∧
    (∀ rk ∈ roleKeys7, rk ≠ "joker" → rk ≠ "snubber" →
      sget2 (fallback_scores msgs9 "Alice" "Bob") "Bob" rk = some 0) := by
  decide

/-- C2: for every role report the aggregation loop of `select_identity`
actually produces from classify output, and for every role key with
counts `cy` and `ct` for the two participants: when the combined count is
nonzero the two rounded percentages sum to 100 within 0.1, and when it is
zero both percentages are 0 and no division is attempted. -/
theorem claim2_report_percentages (r : RemoteResult) (msgs : List Msg)
    (you them : String) (s : Scores) (rep : List RoleRow)
    (hs : calculate_scores r msgs you them = some s)
    (hrep : buildReport s you them = some rep)
    (rk : String) (cy ct : Int) (p q : ℚ)
    (hy : sget s you rk = some cy) (ht : sget s them rk = some ct)
    (he : roleEntry s you them rk = some (p, q)) :
    (cy + ct ≠ 0 → |p + q - 100| ≤ 1 / 10) ∧
    (cy + ct = 0 → p = 0 ∧ q = 0) := by
  rcases calculate_scores_cases r msgs you them s hs with ⟨text, _, hai⟩ | hfb
  · rw [buildReport_noListener s you them
      (parse_ai_scores_noListener text you them s hai)] at hrep
    simp at hrep
  · have hnn := fallback_scores_nonneg msgs you them s hfb
    have hcy := hnn you rk cy hy
    have hct := hnn them rk ct ht
    unfold roleEntry at he
    rw [hy, ht] at he
    simp only [] at he
    constructor
    · intro hne
      have hpos : (0 : Int) < cy + ct := by omega
      rw [if_pos hpos] at he
      injection he with he
      injection he with hp hq
      subst hp
      subst hq
      have hz : ((cy + ct : Int) : ℚ) ≠ 0 := by
        exact_mod_cast hne
      have hz2 : (cy : ℚ) + (ct : ℚ) ≠ 0 := by
        push_cast at hz
        exact hz
      apply round1_sum_near
      push_cast
      field_simp
      ring
    · intro heq
      rw [if_neg (by omega : ¬ (0 : Int) < cy + ct)] at he
      injection he with he
      injection he with hp hq
      exact ⟨hp.symm, hq.symm⟩

/-- the fallback scores of the empty message list: every count is 0, so
the aggregator takes the zero-total branch for every role and the whole
report is kernel-computable. -/
def sZ : Scores := (fallback_scores [] "Alice" "Bob").getD []

/-- the concrete report of the witness scores `sZ`. -/
def repZ : List RoleRow := (buildReport sZ "Alice" "Bob").getD []

theorem claim2_report_percentages_witness :
    calculate_scores .transportError [] "Alice" "Bob" = some sZ ∧
    buildReport sZ "Alice" "Bob" = some repZ ∧
    sget sZ "Alice" "joker" = some 0 ∧
    sget sZ "Bob" "joker" = some 0 ∧
    roleEntry sZ "Alice" "Bob" "joker" = some (0, 0) ∧
    (((0 : Int) + 0 ≠ 0 → |(0 : ℚ) + 0 - 100| ≤ 1 / 10) ∧
     ((0 : Int) + 0 = 0 → (0 : ℚ) = 0 ∧ (0 : ℚ) = 0)) := by
  refine ⟨by decide, by decide, by decide, by decide, by decide, ?_⟩
  exact claim2_report_percentages .transportError [] "Alice" "Bob" sZ repZ
    (by decide) (by decide) "joker" 0 0 0 0 (by decide) (by decide)
    (by decide)

end ChatAnalyzer
